import Mathlib

/-!
# OpenSTX market-data core: a shallow embedding

This file embeds the aggregation, indicator, depth-book, persistence-queue
and supervisor logic of the OpenSTX market-data service in Lean 4 and proves
properties of the embedded definitions.

Conventions:
* C++ `double` and the IB fixed-point `Decimal` are both modelled as `ℚ`
  (none of the proved properties depends on floating-point rounding);
* `std::vector` / `std::deque` become `List` with `push_back` = append at the
  end and `pop_front` = dropping the head;
* `std::map<int, …>` becomes an association list `List (Int × …)` in key
  order, with `operator[]` creating an entry when the key is absent;
* the `side` and `status` fields of an `L2DataPoint` are the literal strings
  used by the C++ code (`"Buy"`/`"Sell"`, `"Inserted"`/`"Updated"`/`"Deleted"`).
-/

namespace OpenSTX

/-- Truncation toward zero, the behaviour of C++ `static_cast<int>` on a
floating-point value: `Int.tdiv` truncates toward zero and `ℚ` is kept
normalized, so this is exact.  For `0 ≤ q` it agrees with `⌊q⌋`. -/
def truncQ (q : ℚ) : ℤ := Int.tdiv q.num q.den

/-- Largest element of a non-empty list (`*std::max_element(begin, end)`);
`0` on the empty list, which the source never queries. -/
def listMaxQ : List ℚ → ℚ
  | [] => 0
  | x :: xs => xs.foldl max x

/-- Smallest element of a non-empty list (`*std::min_element(begin, end)`);
`0` on the empty list, which the source never queries. -/
def listMinQ : List ℚ → ℚ
  | [] => 0
  | x :: xs => xs.foldl min x

theorem le_foldl_max (l : List ℚ) (a : ℚ) : a ≤ l.foldl max a := by
  induction l generalizing a with
  | nil => exact le_refl a
  | cons y ys ih => exact le_trans (le_max_left a y) (ih (max a y))

theorem foldl_max_le_of_mem {l : List ℚ} {x : ℚ} (a : ℚ) (hx : x ∈ l) :
    x ≤ l.foldl max a := by
  induction l generalizing a with
  | nil => cases hx
  | cons y ys ih =>
    rcases List.mem_cons.mp hx with h | h
    · subst h
      exact le_trans (le_max_right a x) (le_foldl_max ys (max a x))
    · exact ih (max a y) h

theorem le_listMaxQ_of_mem {l : List ℚ} {x : ℚ} (hx : x ∈ l) : x ≤ listMaxQ l := by
  cases l with
  | nil => cases hx
  | cons y ys =>
    rcases List.mem_cons.mp hx with h | h
    · subst h; exact le_foldl_max ys x
    · exact foldl_max_le_of_mem y h

theorem foldl_min_le (l : List ℚ) (a : ℚ) : l.foldl min a ≤ a := by
  induction l generalizing a with
  | nil => exact le_refl a
  | cons y ys ih => exact le_trans (ih (min a y)) (min_le_left a y)

theorem foldl_min_le_of_mem {l : List ℚ} {x : ℚ} (a : ℚ) (hx : x ∈ l) :
    l.foldl min a ≤ x := by
  induction l generalizing a with
  | nil => cases hx
  | cons y ys ih =>
    rcases List.mem_cons.mp hx with h | h
    · subst h
      exact le_trans (foldl_min_le ys (min a x)) (min_le_right a x)
    · exact ih (min a y) h

theorem listMinQ_le_of_mem {l : List ℚ} {x : ℚ} (hx : x ∈ l) : listMinQ l ≤ x := by
  cases l with
  | nil => cases hx
  | cons y ys =>
    rcases List.mem_cons.mp hx with h | h
    · subst h; exact foldl_min_le ys x
    · exact foldl_min_le_of_mem y h

namespace RealTimeData

/-! ## RealTimeData: L1 minute-bar aggregation (`RealTimeData::aggregateL1Data`) -/

/-- The L1 minute bar; field names follow the JSON keys of the source
(`{"Open", o}, {"High", h}, {"Low", l}, {"Close", c}, {"Volume", v}`). -/
structure L1Bar where
  Open : ℚ
  High : ℚ
  Low : ℚ
  Close : ℚ
  Volume : ℚ
  deriving Repr, DecidableEq

/-- Model of `RealTimeData::aggregateL1Data`: open = `l1PricesBuffer.front()`,
close = `.back()`, high/low = max/min element, volume = `std::accumulate`
of `l1VolumesBuffer` under exact `Decimal` addition.  The source calls this
only with a non-empty price buffer; the defaults for the empty list are
never queried by the call site. -/
def aggregateL1Data (l1PricesBuffer l1VolumesBuffer : List ℚ) : L1Bar :=
  { Open := l1PricesBuffer.headD 0
    High := listMaxQ l1PricesBuffer
    Low := listMinQ l1PricesBuffer
    Close := l1PricesBuffer.getLastD 0
    Volume := l1VolumesBuffer.sum }

/-- Claim C2 — For every non-empty frozen L1 buffer, the emitted bar has
open = first observed price, close = last, high = maximum, low = minimum
(hence low ≤ open ≤ high and low ≤ close ≤ high), and volume = sum of the
tick volumes. -/
theorem aggregateL1Data_ohlcv (prices volumes : List ℚ) (h : prices ≠ []) :
    (aggregateL1Data prices volumes).Open = prices.headD 0 ∧
    (aggregateL1Data prices volumes).Close = prices.getLastD 0 ∧
    (aggregateL1Data prices volumes).High = listMaxQ prices ∧
    (aggregateL1Data prices volumes).Low = listMinQ prices ∧
    (aggregateL1Data prices volumes).Low ≤ (aggregateL1Data prices volumes).Open ∧
    (aggregateL1Data prices volumes).Open ≤ (aggregateL1Data prices volumes).High ∧
    (aggregateL1Data prices volumes).Low ≤ (aggregateL1Data prices volumes).Close ∧
    (aggregateL1Data prices volumes).Close ≤ (aggregateL1Data prices volumes).High ∧
    (aggregateL1Data prices volumes).Volume = volumes.sum := by
  have hhead : prices.headD 0 ∈ prices := by
    cases prices with
    | nil => exact absurd rfl h
    | cons p ps => exact List.mem_cons_self p ps
  have hlast : prices.getLastD 0 ∈ prices := by
    cases prices with
    | nil => exact absurd rfl h
    | cons p ps =>
      rw [List.getLastD_eq_getLast?, List.getLast?_eq_getLast (p :: ps) (by simp)]
      exact List.getLast_mem _
  refine ⟨rfl, rfl, rfl, rfl, ?_, ?_, ?_, ?_, rfl⟩
  · exact listMinQ_le_of_mem hhead
  · exact le_listMaxQ_of_mem hhead
  · exact listMinQ_le_of_mem hlast
  · exact le_listMaxQ_of_mem hlast

/-- Witness for C2 at the S1 scenario ticks
(100.0, 10), (101.5, 20), (99.5, 5), (100.5, 15). -/
theorem aggregateL1Data_ohlcv_witness :
    (aggregateL1Data [100, 101.5, 99.5, 100.5] [10, 20, 5, 15]).Open =
        ([100, 101.5, 99.5, 100.5] : List ℚ).headD 0 ∧
    (aggregateL1Data [100, 101.5, 99.5, 100.5] [10, 20, 5, 15]).Close =
        ([100, 101.5, 99.5, 100.5] : List ℚ).getLastD 0 ∧
    (aggregateL1Data [100, 101.5, 99.5, 100.5] [10, 20, 5, 15]).High =
        listMaxQ [100, 101.5, 99.5, 100.5] ∧
    (aggregateL1Data [100, 101.5, 99.5, 100.5] [10, 20, 5, 15]).Low =
        listMinQ [100, 101.5, 99.5, 100.5] ∧
    (aggregateL1Data [100, 101.5, 99.5, 100.5] [10, 20, 5, 15]).Low ≤
        (aggregateL1Data [100, 101.5, 99.5, 100.5] [10, 20, 5, 15]).Open ∧
    (aggregateL1Data [100, 101.5, 99.5, 100.5] [10, 20, 5, 15]).Open ≤
        (aggregateL1Data [100, 101.5, 99.5, 100.5] [10, 20, 5, 15]).High ∧
    (aggregateL1Data [100, 101.5, 99.5, 100.5] [10, 20, 5, 15]).Low ≤
        (aggregateL1Data [100, 101.5, 99.5, 100.5] [10, 20, 5, 15]).Close ∧
    (aggregateL1Data [100, 101.5, 99.5, 100.5] [10, 20, 5, 15]).Close ≤
        (aggregateL1Data [100, 101.5, 99.5, 100.5] [10, 20, 5, 15]).High ∧
    (aggregateL1Data [100, 101.5, 99.5, 100.5] [10, 20, 5, 15]).Volume =
        ([10, 20, 5, 15] : List ℚ).sum :=
  aggregateL1Data_ohlcv [100, 101.5, 99.5, 100.5] [10, 20, 5, 15] (by decide)

/-! ## RealTimeData: L2 depth book (`RealTimeData::updateMktDepth`)

The live book is `std::map<int, std::vector<L2DataPoint>> rawL2Data`, modelled
as an association list with distinct keys.  `std::map` iterates in ascending
key order while the association list keeps insertion order; every fold the
source performs over the map (sums, counts) is order-independent, so the
difference is unobservable in the proved statements. -/

/-- One depth entry.  `side` and `status` hold the literal strings of the
source (`"Buy"`/`"Sell"`; `"Inserted"`/`"Updated"`/`"Deleted"`). -/
structure L2DataPoint where
  price : ℚ
  volume : ℚ
  side : String
  status : String
  deriving Repr, DecidableEq

/-- Model of `std::map<int, std::vector<L2DataPoint>>`. -/
abbrev Book := List (Int × List L2DataPoint)

/-- Read access `m.at(k)`-style: the entry list at a key, `[]` when absent. -/
def bookGet (b : Book) (k : Int) : List L2DataPoint :=
  ((b.find? (fun kv => kv.1 == k)).map Prod.snd).getD []

/-- Model of `operator[]` followed by assignment: replace the value at `k`, creating
the key when absent (as `std::map::operator[]` does). -/
def bookSet : Book → Int → List L2DataPoint → Book
  | [], k, v => [(k, v)]
  | kv :: rest, k, v =>
      if kv.1 == k then (k, v) :: rest else kv :: bookSet rest k v

/-- The body of `RealTimeData::updateMktDepth` acting on the entry list of one
`position`.  Operation 0 = Insert, 1 = Update, 2 = Delete; `side` 0 = Buy.
Note that the in-place Update branch assigns `price`, `volume` and `status`
but never touches `side`, exactly as the source does. -/
def updateMktDepthAt (entries : List L2DataPoint) (operation side : Int)
    (price size : ℚ) : List L2DataPoint :=
  let sideStr := if side == 0 then "Buy" else "Sell"
  if operation == 0 then
    entries ++ [⟨price, size, sideStr, "Inserted"⟩]
  else if operation == 1 then
    match entries.getLast? with
    | some latest =>
        if latest.status ≠ "Deleted" then
          entries.dropLast ++
            [{ latest with price := price, volume := size, status := "Updated" }]
        else
          entries ++ [⟨price, size, sideStr, "Inserted"⟩]
    | none => entries ++ [⟨price, size, sideStr, "Inserted"⟩]
  else if operation == 2 then
    match entries.getLast? with
    | some latest => entries.dropLast ++ [{ latest with status := "Deleted" }]
    | none => entries
  else
    entries

/-- Model of `RealTimeData::updateMktDepth` on the whole book: `rawL2Data[position]`
creates the key when absent and the switch mutates its entry list. -/
def updateMktDepth (book : Book) (position operation side : Int)
    (price size : ℚ) : Book :=
  bookSet book position
    (updateMktDepthAt (bookGet book position) operation side price size)

/-- Claim C7 counterexample — an Update (operation 1) whose event side is Sell
(`side = 1`) applied to a position whose last entry is a non-Deleted Buy
entry leaves the entry's side at `"Buy"`: the claim that the update mutates
the side is false at this input. -/
theorem updateMktDepthAt_side_not_mutated :
    ((updateMktDepthAt [⟨100, 5, "Buy", "Inserted"⟩] 1 1 101 7).getLastD
        ⟨0, 0, "", ""⟩).side = "Buy" ∧
    ¬ ((updateMktDepthAt [⟨100, 5, "Buy", "Inserted"⟩] 1 1 101 7).getLastD
        ⟨0, 0, "", ""⟩).side = "Sell" := by
  decide

/-- Claim C7 (amended) — for a position whose entry list has last entry
`latest`: an Update mutates `latest`'s price and volume in place and sets
its status to `"Updated"` while leaving its side unchanged when `latest` is
not Deleted, and appends a fresh `"Inserted"` entry when it is Deleted; a
Delete marks `latest` as `"Deleted"` without removing it (the entry count is
preserved). -/
theorem updateMktDepthAt_cases (entries : List L2DataPoint) (side : Int)
    (price size : ℚ) (latest : L2DataPoint)
    (h : entries.getLast? = some latest) :
    (latest.status ≠ "Deleted" →
      updateMktDepthAt entries 1 side price size =
        entries.dropLast ++
          [{ latest with price := price, volume := size, status := "Updated" }]) ∧
    (latest.status = "Deleted" →
      updateMktDepthAt entries 1 side price size =
        entries ++ [⟨price, size, if side == 0 then "Buy" else "Sell", "Inserted"⟩]) ∧
    updateMktDepthAt entries 2 side price size =
      entries.dropLast ++ [{ latest with status := "Deleted" }] ∧
    (updateMktDepthAt entries 2 side price size).length = entries.length := by
  have hne : entries ≠ [] := by
    intro he; rw [he] at h; simp at h
  refine ⟨?_, ?_, ?_, ?_⟩
  · intro hst
    simp [updateMktDepthAt, h, hst]
  · intro hst
    simp [updateMktDepthAt, h, hst]
  · simp [updateMktDepthAt, h]
  · have : updateMktDepthAt entries 2 side price size =
        entries.dropLast ++ [{ latest with status := "Deleted" }] := by
      simp [updateMktDepthAt, h]
    rw [this, List.length_append, List.length_dropLast, List.length_singleton]
    have hpos : 0 < entries.length := List.length_pos.mpr hne
    omega

/-- Witness for C7 at concrete inputs: an Update on a non-Deleted last entry,
an Update on a Deleted last entry, and a Delete. -/
theorem updateMktDepthAt_cases_witness :
    updateMktDepthAt [⟨100, 5, "Buy", "Inserted"⟩] 1 1 101 7 =
      ([⟨100, 5, "Buy", "Inserted"⟩] : List L2DataPoint).dropLast ++
        [⟨101, 7, "Buy", "Updated"⟩] ∧
    updateMktDepthAt [⟨100, 5, "Buy", "Deleted"⟩] 1 1 101 7 =
      [⟨100, 5, "Buy", "Deleted"⟩] ++ [⟨101, 7, "Sell", "Inserted"⟩] ∧
    (updateMktDepthAt [⟨100, 5, "Buy", "Inserted"⟩] 2 1 0 0).length =
      ([⟨100, 5, "Buy", "Inserted"⟩] : List L2DataPoint).length := by
  refine ⟨?_, ?_, ?_⟩
  · exact (updateMktDepthAt_cases [⟨100, 5, "Buy", "Inserted"⟩] 1 101 7
      ⟨100, 5, "Buy", "Inserted"⟩ rfl).1 (by decide)
  · have h := (updateMktDepthAt_cases [⟨100, 5, "Buy", "Deleted"⟩] 1 101 7
      ⟨100, 5, "Buy", "Deleted"⟩ rfl).2.1 (by decide)
    simpa using h
  · exact (updateMktDepthAt_cases [⟨100, 5, "Buy", "Inserted"⟩] 1 0 0
      ⟨100, 5, "Buy", "Inserted"⟩ rfl).2.2.2

/-! ## RealTimeData: rollover drain (`RealTimeData::moveDeletedItemsToBuffer`)
and L2 histogram (`RealTimeData::aggregateL2Data`) -/

/-- The live-book side of `moveDeletedItemsToBuffer`: `std::stable_partition`
with predicate `status != "Deleted"` followed by `erase` keeps, per position,
exactly the non-Deleted entries in their original order. -/
def moveDeletedLive (live : Book) : Book :=
  live.map (fun kv => (kv.1, kv.2.filter (fun p => !(p.status == "Deleted"))))

/-- The staging-buffer side of `moveDeletedItemsToBuffer`: for every position
of the live book — `operator[]` creates the key in `rawL2DataBuffer` even when
no entry is moved — the Deleted tail entries are appended in order. -/
def moveDeletedBuffer (live buffer : Book) : Book :=
  live.foldl
    (fun buf kv =>
      bookSet buf kv.1
        (bookGet buf kv.1 ++ kv.2.filter (fun p => p.status == "Deleted")))
    buffer

/-- All entries of the frozen buffer in iteration order (positions with an
empty entry list contribute nothing, as the `continue` in the source). -/
def bufferPoints (buf : Book) : List L2DataPoint :=
  (buf.map Prod.snd).flatten

/-- The entries the aggregation loops actually visit: every loop in
`aggregateL2Data`, `calculateBuySellRatio`, `calculateDepthChange` and
`calculateImpliedLiquidity` skips entries with `price == 0.0`. -/
def validPoints (buf : Book) : List L2DataPoint :=
  (bufferPoints buf).filter (fun p => !(p.price == 0))

/-- Model of `static_cast<int>((data.price - minPrice) / interval)` followed by
`std::clamp(bucketIndex, 0, 19)`. -/
def bucketIndex (minPrice interval price : ℚ) : Nat :=
  (min 19 (max 0 (truncQ ((price - minPrice) / interval)))).toNat

/-- One step of the bucket-filling loop: the entry's volume is added to the
buy (resp. sell) component of bucket `bucketIndex minPrice interval p.price`. -/
def addToBuckets (buckets : List (ℚ × ℚ)) (p : L2DataPoint)
    (minPrice interval : ℚ) : List (ℚ × ℚ) :=
  let i := bucketIndex minPrice interval p.price
  let b := buckets.getD i (0, 0)
  if p.side == "Buy" then buckets.set i (b.1 + p.volume, b.2)
  else buckets.set i (b.1, b.2 + p.volume)

/-- The 20-slot `priceLevelBuckets` vector after the fill loop. -/
def buildBuckets (pts : List L2DataPoint) (minPrice interval : ℚ) :
    List (ℚ × ℚ) :=
  pts.foldl (fun bk p => addToBuckets bk p minPrice interval)
    (List.replicate 20 (0, 0))

/-- Model of `RealTimeData::aggregateL2Data` on the frozen buffer.  `none` stands for
the runs that produce no usable histogram: the explicit
`interval == 0.0` early-return of an empty JSON array (identical min and max
prices), and the degenerate run with no nonzero-price entry, where the source
leaves the `±DBL_MAX` sentinels in `minPrice`/`maxPrice` and emits a
histogram whose twenty buckets all carry zero volume.  Claims only concern
runs with at least one nonzero-price entry and distinct min/max. -/
def aggregateL2Data (buf : Book) : Option (List (ℚ × ℚ)) :=
  let pts := validPoints buf
  if pts.isEmpty then none
  else
    let minPrice := listMinQ (pts.map (·.price))
    let maxPrice := listMaxQ (pts.map (·.price))
    let interval := (maxPrice - minPrice) / 20
    if interval = 0 then none
    else some (buildBuckets pts minPrice interval)

/-- Total volume held in a bucket vector (buy plus sell over all buckets). -/
def bucketsTotal (l : List (ℚ × ℚ)) : ℚ :=
  (l.map (fun b => b.1 + b.2)).sum

/-- Model of `std::numeric_limits<double>::max()`, the sentinel the source seeds its
running min/max scans with (written as a plain literal, `1.7976931348623157e308`). -/
def dblMax : ℚ := 179769313486231570000000000000000000000000000000000000000000000000000000000000000000000000000000000000000000000000000000000000000000000000000000000000000000000000000000000000000000000000000000000000000000000000000000000000000000000000000000000000000000000000000000000000000000000000000000000000000000000000000

/-- Model of `RealTimeData::calculateImpliedLiquidity`.  The source divides the
accumulated buy and sell volumes by `rawL2DataBuffer.size()` with no guard;
`none` marks the `size() == 0` case in which both divisions are by zero.
The single accumulation loop of the source is rendered as independent
order-insensitive folds over the same entries. -/
def calculateImpliedLiquidity (buf : Book) : Option ℚ :=
  let pts := validPoints buf
  let totalBuyVolume := ((pts.filter (fun p => p.side == "Buy")).map (·.volume)).sum
  let totalSellVolume := ((pts.filter (fun p => p.side == "Sell")).map (·.volume)).sum
  let highestBid := ((pts.filter (fun p => p.side == "Buy")).map (·.price)).foldl max (-dblMax)
  let lowestAsk := ((pts.filter (fun p => p.side == "Sell")).map (·.price)).foldl min dblMax
  if buf.length = 0 then none
  else
    let averageBuyVolume := totalBuyVolume / (buf.length : ℚ)
    let averageSellVolume := totalSellVolume / (buf.length : ℚ)
    let spread := lowestAsk - highestBid
    if spread ≤ 0 then some 0
    else some ((averageBuyVolume + averageSellVolume) / spread)

theorem bucketIndex_lt (minPrice interval price : ℚ) :
    bucketIndex minPrice interval price < 20 := by
  unfold bucketIndex
  have h1 : min (19 : ℤ) (max 0 (truncQ ((price - minPrice) / interval))) ≤ 19 :=
    min_le_left _ _
  have h2 := Int.toNat_le_toNat h1
  omega

theorem sum_map_set {α : Type} (f : α → ℚ) (d : α) :
    ∀ (l : List α) (i : Nat) (x : α), i < l.length →
      ((l.set i x).map f).sum = (l.map f).sum + f x - f (l.getD i d) := by
  intro l
  induction l with
  | nil => intro i x hi; simp at hi
  | cons y ys ih =>
    intro i x hi
    cases i with
    | zero => simp [List.set]; ring
    | succ n =>
      have hn : n < ys.length := by simpa using hi
      simp only [List.set, List.map_cons, List.sum_cons, List.getD_cons_succ]
      rw [ih n x hn]
      ring

theorem getD_set_self {α : Type} (d x : α) :
    ∀ (l : List α) (i : Nat), i < l.length → (l.set i x).getD i d = x := by
  intro l
  induction l with
  | nil => intro i hi; simp at hi
  | cons y ys ih =>
    intro i hi
    cases i with
    | zero => simp [List.set]
    | succ n =>
      have hn : n < ys.length := by simpa using hi
      simpa [List.set, List.getD_cons_succ] using ih n hn

theorem getD_set_ne {α : Type} (d x : α) :
    ∀ (l : List α) (i j : Nat), i ≠ j → (l.set i x).getD j d = l.getD j d := by
  intro l
  induction l with
  | nil => intro i j _; simp [List.set]
  | cons y ys ih =>
    intro i j hij
    cases i with
    | zero =>
      cases j with
      | zero => exact absurd rfl hij
      | succ m => simp [List.set, List.getD_cons_succ]
    | succ n =>
      cases j with
      | zero => simp [List.set]
      | succ m =>
        have : n ≠ m := by omega
        simpa [List.set, List.getD_cons_succ] using ih n m this

theorem length_addToBuckets (bk : List (ℚ × ℚ)) (p : L2DataPoint)
    (minPrice interval : ℚ) :
    (addToBuckets bk p minPrice interval).length = bk.length := by
  unfold addToBuckets
  split <;> simp

theorem bucketsTotal_addToBuckets (bk : List (ℚ × ℚ)) (p : L2DataPoint)
    (minPrice interval : ℚ) (h : bk.length = 20) :
    bucketsTotal (addToBuckets bk p minPrice interval) =
      bucketsTotal bk + p.volume := by
  have hi : bucketIndex minPrice interval p.price < bk.length := by
    rw [h]; exact bucketIndex_lt _ _ _
  unfold addToBuckets bucketsTotal
  split
  · rw [sum_map_set (fun b => b.1 + b.2) (0, 0) bk _ _ hi]; ring
  · rw [sum_map_set (fun b => b.1 + b.2) (0, 0) bk _ _ hi]; ring

theorem buildBuckets_aux (minPrice interval : ℚ) :
    ∀ (pts : List L2DataPoint) (init : List (ℚ × ℚ)), init.length = 20 →
      bucketsTotal
          (pts.foldl (fun bk p => addToBuckets bk p minPrice interval) init) =
        bucketsTotal init + (pts.map (·.volume)).sum := by
  intro pts
  induction pts with
  | nil => intro init _; simp
  | cons p rest ih =>
    intro init h
    have hlen : (addToBuckets init p minPrice interval).length = 20 := by
      rw [length_addToBuckets, h]
    simp only [List.foldl_cons, List.map_cons, List.sum_cons]
    rw [ih _ hlen, bucketsTotal_addToBuckets init p _ _ h]
    ring

theorem bucketsTotal_buildBuckets (pts : List L2DataPoint)
    (minPrice interval : ℚ) :
    bucketsTotal (buildBuckets pts minPrice interval) =
      (pts.map (·.volume)).sum := by
  unfold buildBuckets
  rw [buildBuckets_aux minPrice interval pts _ (by simp)]
  simp [bucketsTotal]

theorem length_buildBuckets (pts : List L2DataPoint) (minPrice interval : ℚ) :
    (buildBuckets pts minPrice interval).length = 20 := by
  unfold buildBuckets
  have : ∀ (l : List L2DataPoint) (init : List (ℚ × ℚ)), init.length = 20 →
      (l.foldl (fun bk p => addToBuckets bk p minPrice interval) init).length
        = 20 := by
    intro l
    induction l with
    | nil => intro init h; simpa using h
    | cons p rest ih =>
      intro init h
      simp only [List.foldl_cons]
      exact ih _ (by rw [length_addToBuckets, h])
  exact this pts _ (by simp)

theorem bookGet_fresh (k : Int) :
    ∀ b : Book, (∀ kv ∈ b, kv.1 ≠ k) → bookGet b k = [] := by
  intro b
  induction b with
  | nil => intro _; rfl
  | cons kv rest ih =>
    intro h
    have hk : kv.1 ≠ k := h kv (List.mem_cons_self kv rest)
    have : (kv.1 == k) = false := by simpa using hk
    simp only [bookGet, List.find?]
    rw [this]
    exact ih (fun kv' hkv' => h kv' (List.mem_cons_of_mem kv hkv'))

theorem bookSet_fresh (k : Int) (v : List L2DataPoint) :
    ∀ b : Book, (∀ kv ∈ b, kv.1 ≠ k) → bookSet b k v = b ++ [(k, v)] := by
  intro b
  induction b with
  | nil => intro _; rfl
  | cons kv rest ih =>
    intro h
    have hk : kv.1 ≠ k := h kv (List.mem_cons_self kv rest)
    have hbeq : (kv.1 == k) = false := by simpa using hk
    simp only [bookSet, hbeq, if_false, List.cons_append]
    rw [ih (fun kv' hkv' => h kv' (List.mem_cons_of_mem kv hkv'))]
    simp

theorem moveDeletedBuffer_cons (kv : Int × List L2DataPoint) (rest buffer : Book) :
    moveDeletedBuffer (kv :: rest) buffer =
      moveDeletedBuffer rest
        (bookSet buffer kv.1
          (bookGet buffer kv.1 ++
            kv.2.filter (fun p => p.status == "Deleted"))) := rfl

theorem moveDeletedBuffer_eq :
    ∀ (live buffer : Book), (live.map Prod.fst).Nodup →
      (∀ k ∈ live.map Prod.fst, ∀ kv ∈ buffer, kv.1 ≠ k) →
      moveDeletedBuffer live buffer =
        buffer ++
          live.map (fun kv =>
            (kv.1, kv.2.filter (fun p => p.status == "Deleted"))) := by
  intro live
  induction live with
  | nil => intro buffer _ _; simp [moveDeletedBuffer]
  | cons kv rest ih =>
    intro buffer hnd hfresh
    have hk : ∀ kv' ∈ buffer, kv'.1 ≠ kv.1 :=
      hfresh kv.1 (by simp)
    rw [moveDeletedBuffer_cons, bookGet_fresh kv.1 buffer hk,
      bookSet_fresh kv.1 _ buffer hk]
    have hnd' : (rest.map Prod.fst).Nodup := (List.nodup_cons.mp (by simpa using hnd)).2
    have hnotmem : kv.1 ∉ rest.map Prod.fst :=
      (List.nodup_cons.mp (by simpa using hnd)).1
    have hfresh' : ∀ k ∈ rest.map Prod.fst,
        ∀ kv' ∈ buffer ++ [(kv.1, List.filter (fun p => p.status == "Deleted") kv.2)],
          kv'.1 ≠ k := by
      intro k hkmem kv' hkv'
      rcases List.mem_append.mp hkv' with h | h
      · exact hfresh k (List.mem_cons_of_mem _ hkmem) kv' h
      · have : kv' = (kv.1, List.filter (fun p => p.status == "Deleted") kv.2) := by
          simpa using h
        rw [this]
        intro hEq
        exact hnotmem (hEq ▸ hkmem)
    rw [List.nil_append, ih _ hnd' hfresh']
    simp

theorem length_le_bookSet (k : Int) (v : List L2DataPoint) :
    ∀ b : Book, b.length ≤ (bookSet b k v).length := by
  intro b
  induction b with
  | nil => simp [bookSet]
  | cons kv rest ih =>
    simp only [bookSet]
    split
    · simp
    · simpa using ih

theorem length_le_moveDeletedBuffer :
    ∀ (live buffer : Book), buffer.length ≤ (moveDeletedBuffer live buffer).length := by
  intro live
  induction live with
  | nil => intro buffer; simp [moveDeletedBuffer]
  | cons kv rest ih =>
    intro buffer
    rw [moveDeletedBuffer_cons]
    exact le_trans (length_le_bookSet kv.1 _ buffer) (ih _)

theorem addToBuckets_getD (bk : List (ℚ × ℚ)) (p : L2DataPoint)
    (minPrice interval : ℚ) (h : bk.length = 20) :
    (addToBuckets bk p minPrice interval).getD
        (bucketIndex minPrice interval p.price) (0, 0) =
      (if p.side == "Buy" then
        ((bk.getD (bucketIndex minPrice interval p.price) (0, 0)).1 + p.volume,
         (bk.getD (bucketIndex minPrice interval p.price) (0, 0)).2)
       else
        ((bk.getD (bucketIndex minPrice interval p.price) (0, 0)).1,
         (bk.getD (bucketIndex minPrice interval p.price) (0, 0)).2 + p.volume)) ∧
    ∀ j, j ≠ bucketIndex minPrice interval p.price →
      (addToBuckets bk p minPrice interval).getD j (0, 0) = bk.getD j (0, 0) := by
  have hi : bucketIndex minPrice interval p.price < bk.length := by
    rw [h]; exact bucketIndex_lt _ _ _
  constructor
  · unfold addToBuckets
    split
    · exact getD_set_self (0, 0) _ bk _ hi
    · exact getD_set_self (0, 0) _ bk _ hi
  · intro j hj
    unfold addToBuckets
    split
    · exact getD_set_ne (0, 0) _ bk _ j (fun hEq => hj hEq.symm)
    · exact getD_set_ne (0, 0) _ bk _ j (fun hEq => hj hEq.symm)

/-- Claim C3 counterexample — a minute whose live book holds one non-Deleted
entry (price 10, volume 5) and two Deleted entries (volumes 7 and 9): the
histogram produced at rollover carries total volume 16, the volume of the
*Deleted* entries, while the non-deleted events of the minute sum to 5; the
claim that the histogram is computed over the non-deleted events is false
here. -/
theorem aggregateL2Data_nondeleted_counterexample :
    (aggregateL2Data (moveDeletedBuffer
        [(0, [⟨10, 5, "Buy", "Inserted"⟩, ⟨20, 7, "Sell", "Deleted"⟩]),
         (1, [⟨30, 9, "Buy", "Deleted"⟩])] [])).isSome = true ∧
    bucketsTotal ((aggregateL2Data (moveDeletedBuffer
        [(0, [⟨10, 5, "Buy", "Inserted"⟩, ⟨20, 7, "Sell", "Deleted"⟩]),
         (1, [⟨30, 9, "Buy", "Deleted"⟩])] [])).getD []) = 16 ∧
    (((bufferPoints
        [(0, [⟨10, 5, "Buy", "Inserted"⟩, ⟨20, 7, "Sell", "Deleted"⟩]),
         (1, [⟨30, 9, "Buy", "Deleted"⟩])]).filter
        (fun p => !(p.status == "Deleted"))).map (·.volume)).sum = 5 ∧
    (16 : ℚ) ≠ 5 := by
  with_unfolding_all decide

/-- Claim C3 (amended) — the staging buffer drained at rollover holds, per
position, exactly the entries with status `"Deleted"`; whenever the
histogram is produced (at least one entry with nonzero price, distinct min
and max) it has 20 buckets and the sum of all bucket buy-volumes plus all
bucket sell-volumes equals the sum of the volumes of the drained
nonzero-price entries; each such entry's volume lands in bucket
`clamp(trunc((price − min) / interval), 0, 19)` and leaves every other
bucket unchanged. -/
theorem aggregateL2Data_deleted_conservation (live : Book)
    (hnd : (live.map Prod.fst).Nodup) :
    moveDeletedBuffer live [] =
      live.map (fun kv =>
        (kv.1, kv.2.filter (fun p => p.status == "Deleted"))) ∧
    (∀ bks, aggregateL2Data (moveDeletedBuffer live []) = some bks →
      bks.length = 20 ∧
      bucketsTotal bks =
        ((validPoints (moveDeletedBuffer live [])).map (·.volume)).sum) ∧
    (∀ (bk : List (ℚ × ℚ)) (p : L2DataPoint) (minPrice interval : ℚ),
      bk.length = 20 →
      (addToBuckets bk p minPrice interval).getD
          (bucketIndex minPrice interval p.price) (0, 0) =
        (if p.side == "Buy" then
          ((bk.getD (bucketIndex minPrice interval p.price) (0, 0)).1 + p.volume,
           (bk.getD (bucketIndex minPrice interval p.price) (0, 0)).2)
         else
          ((bk.getD (bucketIndex minPrice interval p.price) (0, 0)).1,
           (bk.getD (bucketIndex minPrice interval p.price) (0, 0)).2 + p.volume)) ∧
      ∀ j, j ≠ bucketIndex minPrice interval p.price →
        (addToBuckets bk p minPrice interval).getD j (0, 0) =
          bk.getD j (0, 0)) := by
  refine ⟨?_, ?_, ?_⟩
  · rw [moveDeletedBuffer_eq live [] hnd (by intro k _ kv hkv; cases hkv)]
    simp
  · intro bks hbk
    simp only [aggregateL2Data] at hbk
    split at hbk
    · exact absurd hbk (by simp)
    · split at hbk
      · exact absurd hbk (by simp)
      · have hb : buildBuckets (validPoints (moveDeletedBuffer live []))
            (listMinQ ((validPoints (moveDeletedBuffer live [])).map (·.price)))
            (((listMaxQ ((validPoints (moveDeletedBuffer live [])).map (·.price))) -
              (listMinQ ((validPoints (moveDeletedBuffer live [])).map (·.price)))) / 20)
            = bks := by
          exact Option.some_inj.mp hbk
        rw [← hb]
        exact ⟨length_buildBuckets _ _ _, bucketsTotal_buildBuckets _ _ _⟩
  · intro bk p minPrice interval hlen
    exact addToBuckets_getD bk p minPrice interval hlen

/-- Witness for C3 at the counterexample book: the staging buffer is the
Deleted-filter of the live book and the produced histogram's total equals
the drained entries' total volume. -/
theorem aggregateL2Data_deleted_conservation_witness :
    moveDeletedBuffer
        [(0, [⟨10, 5, "Buy", "Inserted"⟩, ⟨20, 7, "Sell", "Deleted"⟩]),
         (1, [⟨30, 9, "Buy", "Deleted"⟩])] [] =
      ([(0, [⟨10, 5, "Buy", "Inserted"⟩, ⟨20, 7, "Sell", "Deleted"⟩]),
        (1, [⟨30, 9, "Buy", "Deleted"⟩])] : Book).map (fun kv =>
        (kv.1, kv.2.filter (fun p => p.status == "Deleted"))) ∧
    bucketsTotal ((aggregateL2Data (moveDeletedBuffer
        [(0, [⟨10, 5, "Buy", "Inserted"⟩, ⟨20, 7, "Sell", "Deleted"⟩]),
         (1, [⟨30, 9, "Buy", "Deleted"⟩])] [])).getD []) =
      ((validPoints (moveDeletedBuffer
        [(0, [⟨10, 5, "Buy", "Inserted"⟩, ⟨20, 7, "Sell", "Deleted"⟩]),
         (1, [⟨30, 9, "Buy", "Deleted"⟩])] [])).map (·.volume)).sum :=
  ⟨(aggregateL2Data_deleted_conservation
      [(0, [⟨10, 5, "Buy", "Inserted"⟩, ⟨20, 7, "Sell", "Deleted"⟩]),
       (1, [⟨30, 9, "Buy", "Deleted"⟩])] (by decide)).1,
   ((aggregateL2Data_deleted_conservation
      [(0, [⟨10, 5, "Buy", "Inserted"⟩, ⟨20, 7, "Sell", "Deleted"⟩]),
       (1, [⟨30, 9, "Buy", "Deleted"⟩])] (by decide)).2.1
      ((aggregateL2Data (moveDeletedBuffer
        [(0, [⟨10, 5, "Buy", "Inserted"⟩, ⟨20, 7, "Sell", "Deleted"⟩]),
         (1, [⟨30, 9, "Buy", "Deleted"⟩])] [])).getD [])
      (by with_unfolding_all decide)).2⟩

/-- Claim C9 counterexample — a minute in which no L2 entry was marked Deleted:
the live book holds one position with a single non-Deleted entry.  Contrary
to the claim, the frozen staging map is *not* empty after the drain —
`operator[]` creates a (empty-list) slot for every live position — so the
implied-liquidity divisor is 1, not 0. -/
theorem impliedLiquidity_staging_counterexample :
    (moveDeletedBuffer [(0, [⟨100, 5, "Buy", "Inserted"⟩])] []).length = 1 ∧
    moveDeletedBuffer [(0, [⟨100, 5, "Buy", "Inserted"⟩])] [] ≠ [] ∧
    (calculateImpliedLiquidity
        (moveDeletedBuffer [(0, [⟨100, 5, "Buy", "Inserted"⟩])] [])).isSome
      = true := by
  with_unfolding_all decide

/-- Claim C9 (amended) — at the rollover call site the staging buffer passed to
`calculateImpliedLiquidity` has one slot per live position (the drain's
`operator[]` creates the key even when nothing is moved), so for any
non-empty live book the divisor `rawL2DataBuffer.size()` equals the live
position count and is positive: the unguarded division never divides by
zero on this path. -/
theorem calculateImpliedLiquidity_rollover_safe (live : Book) (h : live ≠ [])
    (hnd : (live.map Prod.fst).Nodup) :
    0 < (moveDeletedBuffer live []).length ∧
    (moveDeletedBuffer live []).length = live.length ∧
    (calculateImpliedLiquidity (moveDeletedBuffer live [])).isSome = true := by
  have hlen : (moveDeletedBuffer live []).length = live.length := by
    rw [moveDeletedBuffer_eq live [] hnd (by intro k _ kv hkv; cases hkv)]
    simp
  have hpos : 0 < (moveDeletedBuffer live []).length := by
    rw [hlen]; exact List.length_pos.mpr h
  refine ⟨hpos, hlen, ?_⟩
  simp only [calculateImpliedLiquidity]
  rw [if_neg (by omega)]
  split <;> simp

/-- Witness for C9 at a one-position live book containing a Deleted entry. -/
theorem calculateImpliedLiquidity_rollover_safe_witness :
    0 < (moveDeletedBuffer [(0, [⟨100, 6, "Buy", "Deleted"⟩])] []).length ∧
    (moveDeletedBuffer [(0, [⟨100, 6, "Buy", "Deleted"⟩])] []).length =
      ([(0, [⟨100, 6, "Buy", "Deleted"⟩])] : Book).length ∧
    (calculateImpliedLiquidity
        (moveDeletedBuffer [(0, [⟨100, 6, "Buy", "Deleted"⟩])] [])).isSome
      = true :=
  calculateImpliedLiquidity_rollover_safe [(0, [⟨100, 6, "Buy", "Deleted"⟩])]
    (by decide) (by decide)

/-! ## RealTimeData: feature engine

The nine feature calculations of `RealTimeData::calculateFeatures`.  The
per-minute features read the frozen buffers; the indicator-style features
read the bounded historical close/volume rings.  Loops of the source that
index `l1VolumesBuffer[i]` for `i < l1PricesBuffer.size()` are rendered with
`List.zip`, which models every execution in which the access is in bounds. -/

/-- Model of `RealTimeData::calculateWeightedAveragePrice`. -/
def calculateWeightedAveragePrice (prices volumes : List ℚ) : ℚ :=
  if prices.isEmpty || volumes.isEmpty then 0
  else
    let pv := List.zip prices volumes
    let totalWeightedPrice := (pv.map (fun x => x.1 * x.2)).sum
    let totalVolume := (pv.map (fun x => x.2)).sum
    if totalVolume = 0 then 0 else totalWeightedPrice / totalVolume

/-- Model of `RealTimeData::calculateBuySellRatio`; the `else` of the source treats
every non-`"Buy"` entry as sell volume. -/
def calculateBuySellRatio (buf : Book) : ℚ :=
  let totalBuyVolume :=
    (((validPoints buf).filter (fun p => p.side == "Buy")).map (·.volume)).sum
  let totalSellVolume :=
    (((validPoints buf).filter (fun p => !(p.side == "Buy"))).map (·.volume)).sum
  if totalSellVolume = 0 then 0 else totalBuyVolume / totalSellVolume

/-- Model of `RealTimeData::calculateDepthChange` (explicit `else if` on `"Sell"`). -/
def calculateDepthChange (buf : Book) : ℚ :=
  let totalBuyVolume :=
    (((validPoints buf).filter (fun p => p.side == "Buy")).map (·.volume)).sum
  let totalSellVolume :=
    (((validPoints buf).filter (fun p => p.side == "Sell")).map (·.volume)).sum
  totalBuyVolume - totalSellVolume

/-- Model of `RealTimeData::calculatePriceMomentum`. -/
def calculatePriceMomentum (historicalClosePrices : List ℚ) : ℚ :=
  if historicalClosePrices.length < 2 then 0
  else historicalClosePrices.getLastD 0 - historicalClosePrices.headD 0

/-- Model of `RealTimeData::calculateTradeDensity`. -/
def calculateTradeDensity (historicalVolumes : List ℚ) : ℚ :=
  if historicalVolumes.isEmpty then 0
  else historicalVolumes.sum / (historicalVolumes.length : ℚ)

/-- Model of `RealTimeData::calculateRSI`: 14 consecutive changes over the last 15
historical closes; a non-positive change contributes its negation to the
losses.  Note the source's `rs` is `avgGain` itself when `avgLoss == 0`. -/
def calculateRSI (historicalClosePrices : List ℚ) : ℚ :=
  if historicalClosePrices.length < 15 then 50
  else
    let last15 := historicalClosePrices.drop (historicalClosePrices.length - 15)
    let changes := List.zipWith (fun a b => a - b) last15.tail last15
    let gains := (changes.filter (fun c => decide (0 < c))).sum
    let losses := -((changes.filter (fun c => !(decide (0 < c)))).sum)
    let avgGain := gains / 14
    let avgLoss := losses / 14
    let rs := if avgLoss = 0 then avgGain else avgGain / avgLoss
    100 - 100 / (1 + rs)

/-- Model of `RealTimeData::calculateEMA`: SMA seed over the last `period` closes,
then one exponential step per close of that window. -/
def calculateEMA (historicalClosePrices : List ℚ) (period : Nat) : ℚ :=
  if historicalClosePrices.length < period then historicalClosePrices.getLastD 0
  else
    let window := historicalClosePrices.drop (historicalClosePrices.length - period)
    let seed := window.sum / (period : ℚ)
    window.foldl (fun ema p => (p - ema) * (2 / ((period : ℚ) + 1)) + ema) seed

/-- Model of `RealTimeData::calculateMACD`. -/
def calculateMACD (historicalClosePrices : List ℚ) : ℚ :=
  if historicalClosePrices.length < 26 then 0
  else calculateEMA historicalClosePrices 12 - calculateEMA historicalClosePrices 26

/-- Model of `RealTimeData::calculateVWAP`, computed over the bounded historical
rings — not over process-lifetime accumulators — and returning `0` (not the
close) when the rings are empty or the summed volume is zero. -/
def calculateVWAP (historicalClosePrices historicalVolumes : List ℚ) : ℚ :=
  if historicalClosePrices.isEmpty || historicalVolumes.isEmpty then 0
  else
    let pv := List.zip historicalClosePrices historicalVolumes
    let cumulativePriceVolume := (pv.map (fun x => x.1 * x.2)).sum
    let cumulativeVolume := (pv.map (fun x => x.2)).sum
    if cumulativeVolume = 0 then 0
    else cumulativePriceVolume / cumulativeVolume

/-- The feature record; field names follow the JSON keys of the source. -/
structure Features where
  WeightedAvgPrice : ℚ
  BuySellRatio : ℚ
  DepthChange : ℚ
  ImpliedLiquidity : Option ℚ
  PriceMomentum : ℚ
  TradeDensity : ℚ
  RSI : ℚ
  MACD : ℚ
  VWAP : ℚ
  deriving Repr, DecidableEq

/-- Model of `RealTimeData::calculateFeatures` over the frozen buffers and the
historical rings. -/
def calculateFeatures (l1PricesBuffer l1VolumesBuffer : List ℚ) (buf : Book)
    (historicalClosePrices historicalVolumes : List ℚ) : Features :=
  { WeightedAvgPrice := calculateWeightedAveragePrice l1PricesBuffer l1VolumesBuffer
    BuySellRatio := calculateBuySellRatio buf
    DepthChange := calculateDepthChange buf
    ImpliedLiquidity := calculateImpliedLiquidity buf
    PriceMomentum := calculatePriceMomentum historicalClosePrices
    TradeDensity := calculateTradeDensity historicalVolumes
    RSI := calculateRSI historicalClosePrices
    MACD := calculateMACD historicalClosePrices
    VWAP := calculateVWAP historicalClosePrices historicalVolumes }

/-! ## RealTimeData: the minute-rollover state machine
(`RealTimeData::aggregateMinuteData` and helpers)

The member declarations of this class live in a header draft that does not
match the translation unit; the state below is reconstructed from the
member usage in `RealTimeData.cpp` itself (`dataQueue` is used exclusively
through `emplace`/`front`/`pop`, the `std::queue` interface).  Only the log
lines claims refer to are modelled.  `MAX_HISTORY_SIZE`, declared in the
missing header, is a parameter. -/

/-- The combined record `(datetime, l1Data, l2Data, features)` queued by
`addToQueue` and serialized to shared memory. -/
structure CombinedRecord where
  datetime : String
  l1 : L1Bar
  l2 : Option (List (ℚ × ℚ))
  features : Features
  deriving Repr, DecidableEq

/-- The aggregator state touched by the rollover. -/
structure RTState where
  l1Prices : List ℚ
  l1Volumes : List ℚ
  rawL2Data : Book
  l1PricesBuffer : List ℚ
  l1VolumesBuffer : List ℚ
  rawL2DataBuffer : Book
  historicalClosePrices : List ℚ
  historicalVolumes : List ℚ
  dataQueue : List CombinedRecord
  sharedMemory : Option CombinedRecord
  log : List String
  deriving Repr, DecidableEq

/-- Model of `RealTimeData::swapBuffers`: `std::swap` of the live and frozen L1
vectors. -/
def swapBuffers (s : RTState) : RTState :=
  { s with
    l1Prices := s.l1PricesBuffer
    l1PricesBuffer := s.l1Prices
    l1Volumes := s.l1VolumesBuffer
    l1VolumesBuffer := s.l1Volumes }

/-- Model of `RealTimeData::moveDeletedItemsToBuffer` acting on the state. -/
def moveDeletedItems (s : RTState) : RTState :=
  { s with
    rawL2Data := moveDeletedLive s.rawL2Data
    rawL2DataBuffer := moveDeletedBuffer s.rawL2Data s.rawL2DataBuffer }

/-- Model of `RealTimeData::updateHistoricalData`: push the frozen close and summed
volume, then pop one front element of each ring if the close ring exceeds
`MAX_HISTORY_SIZE` (a constant of the missing header, here a parameter). -/
def updateHistoricalData (maxHistorySize : Nat) (s : RTState) : RTState :=
  if s.l1PricesBuffer ≠ [] then
    let closePrice := s.l1PricesBuffer.getLastD 0
    let totalVolume := s.l1VolumesBuffer.sum
    let hcp := s.historicalClosePrices ++ [closePrice]
    let hv := s.historicalVolumes ++ [totalVolume]
    if maxHistorySize < hcp.length then
      { s with historicalClosePrices := hcp.drop 1, historicalVolumes := hv.drop 1 }
    else
      { s with historicalClosePrices := hcp, historicalVolumes := hv }
  else s

/-- Model of `RealTimeData::clearBufferData`. -/
def clearBufferData (s : RTState) : RTState :=
  { s with l1PricesBuffer := [], l1VolumesBuffer := [], rawL2DataBuffer := [] }

/-- Model of `RealTimeData::clearTemporaryData`. -/
def clearTemporaryData (s : RTState) : RTState :=
  { s with l1Prices := [], l1Volumes := [], rawL2Data := [] }

/-- Model of `RealTimeData::addToQueue`: `dataQueue.emplace(...)` appends at the back
of the FIFO. -/
def addToQueue (s : RTState) (r : CombinedRecord) : RTState :=
  { s with dataQueue := s.dataQueue ++ [r] }

/-- Model of `RealTimeData::writeToSharedMemory`: the region holds the last written
record. -/
def writeToSharedMemory (s : RTState) (r : CombinedRecord) : RTState :=
  { s with sharedMemory := some r }

/-- Model of `RealTimeData::aggregateMinuteData`.  `aggExc = some e` models an
exception `e` escaping the `try` block from the aggregation futures or the
feature computation (for instance the `l1Data["Volume"].get<std::string>()`
type error); `none` models the exception-free run.  The empty-data guard,
the swap/drain/history steps, the enqueue, the shared-memory write, the
buffer clears and the claim-relevant log lines follow the source's order. -/
def aggregateMinuteData (maxHistorySize : Nat) (now : String)
    (aggExc : Option String) (s : RTState) : RTState :=
  if s.l1Prices = [] ∨ s.l1Volumes = [] ∨ s.rawL2Data = [] then
    clearTemporaryData
      { s with log := s.log ++
          ["W: Incomplete data. Clearing temporary data and skipping aggregation."] }
  else
    let s3 := updateHistoricalData maxHistorySize (moveDeletedItems (swapBuffers s))
    match aggExc with
    | some e =>
        clearBufferData
          { s3 with log := s3.log ++ ["E: Error in aggregateMinuteData: " ++ e] }
    | none =>
        let l1Data := aggregateL1Data s3.l1PricesBuffer s3.l1VolumesBuffer
        let l2Data := aggregateL2Data s3.rawL2DataBuffer
        let features := calculateFeatures s3.l1PricesBuffer s3.l1VolumesBuffer
          s3.rawL2DataBuffer s3.historicalClosePrices s3.historicalVolumes
        let r : CombinedRecord := ⟨now, l1Data, l2Data, features⟩
        clearBufferData (writeToSharedMemory (addToQueue s3 r) r)

/-- Claim C8 — at a rollover at which the live L1 price vector, the live L1
volume vector or the live L2 book is empty: a warning is logged, the live
buffers are cleared, nothing is enqueued, nothing is written to shared
memory, and neither the frozen buffers nor the historical indicator rings
advance. -/
theorem aggregateMinuteData_skip (maxHistorySize : Nat) (now : String)
    (aggExc : Option String) (s : RTState)
    (h : s.l1Prices = [] ∨ s.l1Volumes = [] ∨ s.rawL2Data = []) :
    (aggregateMinuteData maxHistorySize now aggExc s).l1Prices = [] ∧
    (aggregateMinuteData maxHistorySize now aggExc s).l1Volumes = [] ∧
    (aggregateMinuteData maxHistorySize now aggExc s).rawL2Data = [] ∧
    (aggregateMinuteData maxHistorySize now aggExc s).dataQueue = s.dataQueue ∧
    (aggregateMinuteData maxHistorySize now aggExc s).sharedMemory = s.sharedMemory ∧
    (aggregateMinuteData maxHistorySize now aggExc s).historicalClosePrices =
      s.historicalClosePrices ∧
    (aggregateMinuteData maxHistorySize now aggExc s).historicalVolumes =
      s.historicalVolumes ∧
    (aggregateMinuteData maxHistorySize now aggExc s).l1PricesBuffer =
      s.l1PricesBuffer ∧
    (aggregateMinuteData maxHistorySize now aggExc s).l1VolumesBuffer =
      s.l1VolumesBuffer ∧
    (aggregateMinuteData maxHistorySize now aggExc s).rawL2DataBuffer =
      s.rawL2DataBuffer ∧
    (aggregateMinuteData maxHistorySize now aggExc s).log =
      s.log ++
        ["W: Incomplete data. Clearing temporary data and skipping aggregation."] := by
  simp [aggregateMinuteData, if_pos h, clearTemporaryData]

/-- Witness for C8: a state with ticks in the L1 price vector but an empty
L2 book skips the minute. -/
theorem aggregateMinuteData_skip_witness :
    (aggregateMinuteData 26 "2024-01-02 12:00:00" none
        ⟨[100], [10], [], [], [], [], [], [], [], none, []⟩).dataQueue =
      (⟨[100], [10], [], [], [], [], [], [], [], none, []⟩ : RTState).dataQueue ∧
    (aggregateMinuteData 26 "2024-01-02 12:00:00" none
        ⟨[100], [10], [], [], [], [], [], [], [], none, []⟩).sharedMemory =
      (⟨[100], [10], [], [], [], [], [], [], [], none, []⟩ : RTState).sharedMemory ∧
    (aggregateMinuteData 26 "2024-01-02 12:00:00" none
        ⟨[100], [10], [], [], [], [], [], [], [], none, []⟩).l1Prices = [] :=
  by
  have h := aggregateMinuteData_skip 26 "2024-01-02 12:00:00" none
    ⟨[100], [10], [], [], [], [], [], [], [], none, []⟩ (by right; right; rfl)
  exact ⟨h.2.2.2.1, h.2.2.2.2.1, h.1⟩

/-- Claim C10 — a minute whose aggregation or feature computation raises an
exception: the frozen L1/L2 buffers are cleared, nothing is enqueued to the
persistence queue, nothing is written to shared memory, and the minute's
live data — swapped into the frozen buffers and then cleared — survives
nowhere in the state, so the bar is permanently dropped (never retried). -/
theorem aggregateMinuteData_exception (maxHistorySize : Nat) (now e : String)
    (s : RTState)
    (hne : ¬(s.l1Prices = [] ∨ s.l1Volumes = [] ∨ s.rawL2Data = []))
    (hb1 : s.l1PricesBuffer = []) (hb2 : s.l1VolumesBuffer = []) :
    (aggregateMinuteData maxHistorySize now (some e) s).l1PricesBuffer = [] ∧
    (aggregateMinuteData maxHistorySize now (some e) s).l1VolumesBuffer = [] ∧
    (aggregateMinuteData maxHistorySize now (some e) s).rawL2DataBuffer = [] ∧
    (aggregateMinuteData maxHistorySize now (some e) s).dataQueue = s.dataQueue ∧
    (aggregateMinuteData maxHistorySize now (some e) s).sharedMemory =
      s.sharedMemory ∧
    (aggregateMinuteData maxHistorySize now (some e) s).l1Prices = [] ∧
    (aggregateMinuteData maxHistorySize now (some e) s).l1Volumes = [] ∧
    (aggregateMinuteData maxHistorySize now (some e) s).rawL2Data =
      moveDeletedLive s.rawL2Data := by
  have h1 : s.l1Prices ≠ [] := fun hc => hne (Or.inl hc)
  have h2 : s.l1Volumes ≠ [] := fun hc => hne (Or.inr (Or.inl hc))
  have h3 : s.rawL2Data ≠ [] := fun hc => hne (Or.inr (Or.inr hc))
  simp [aggregateMinuteData, updateHistoricalData, moveDeletedItems,
    swapBuffers, clearBufferData, h1, h2, h3, hb1, hb2, apply_ite]

/-- Witness for C10 at a concrete one-tick state with a feature-computation
exception. -/
theorem aggregateMinuteData_exception_witness :
    (aggregateMinuteData 26 "2024-01-02 12:00:00" (some "type_error")
        ⟨[100], [10], [(0, [⟨100, 5, "Buy", "Inserted"⟩])],
          [], [], [], [], [], [], none, []⟩).dataQueue =
      (⟨[100], [10], [(0, [⟨100, 5, "Buy", "Inserted"⟩])],
          [], [], [], [], [], [], none, []⟩ : RTState).dataQueue ∧
    (aggregateMinuteData 26 "2024-01-02 12:00:00" (some "type_error")
        ⟨[100], [10], [(0, [⟨100, 5, "Buy", "Inserted"⟩])],
          [], [], [], [], [], [], none, []⟩).sharedMemory =
      (⟨[100], [10], [(0, [⟨100, 5, "Buy", "Inserted"⟩])],
          [], [], [], [], [], [], none, []⟩ : RTState).sharedMemory ∧
    (aggregateMinuteData 26 "2024-01-02 12:00:00" (some "type_error")
        ⟨[100], [10], [(0, [⟨100, 5, "Buy", "Inserted"⟩])],
          [], [], [], [], [], [], none, []⟩).l1PricesBuffer = [] ∧
    (aggregateMinuteData 26 "2024-01-02 12:00:00" (some "type_error")
        ⟨[100], [10], [(0, [⟨100, 5, "Buy", "Inserted"⟩])],
          [], [], [], [], [], [], none, []⟩).l1Prices = [] :=
  by
  have h := aggregateMinuteData_exception 26 "2024-01-02 12:00:00" "type_error"
    ⟨[100], [10], [(0, [⟨100, 5, "Buy", "Inserted"⟩])],
      [], [], [], [], [], [], none, []⟩ (by simp) rfl rfl
  exact ⟨h.2.2.2.1, h.2.2.2.2.1, h.1, h.2.2.2.2.2.1⟩

/-- Model of `RealTimeData::writeToDatabaseFunc`, abstracted over the queued record
type: the writer repeatedly attempts `db->insertRealTimeData` on
`dataQueue.front()`; each `Bool` of the outcome list is the result of one
insert attempt.  On `true` the head is popped and counted as written; on
`false` the head stays in place (`break` and retry on the next signal).
Returns (records written in order, remaining queue). -/
def writeToDatabaseFunc {α : Type} : List α → List Bool → List α × List α
  | q, [] => ([], q)
  | [], _ :: _ => ([], [])
  | b :: q, true :: outs =>
      let wr := writeToDatabaseFunc q outs
      (b :: wr.1, wr.2)
  | b :: q, false :: outs => writeToDatabaseFunc (b :: q) outs

end RealTimeData

namespace DailyDataFetcher

/-! ## DailyDataFetcher: persistence queue

`std::priority_queue<DataItem, std::vector<DataItem>, CompareDataItem>` with
`CompareDataItem(a, b) = a.date > b.date`, so `top()` is an element of
minimal date.  The heap's choice among equal dates is unspecified; the model
pops the earliest-queued minimal element and keeps the underlying storage in
insertion order, which realizes one legal heap behaviour (the proved
statements avoid relying on tie order). -/

/-- Model of `DataItem { std::string date; std::map<...> data; }`; the payload is
opaque to the queue logic. -/
structure DataItem (α : Type) where
  date : String
  data : α
  deriving Repr, DecidableEq

/-- Model of `top()`/`pop()` of the priority queue: remove an element of minimal
`date` (the earliest-queued one among ties). -/
def pqPopMin {α : Type} : List (DataItem α) → Option (DataItem α × List (DataItem α))
  | [] => none
  | x :: xs =>
    match pqPopMin xs with
    | none => some (x, [])
    | some (m, rest) =>
        if m.date < x.date then some (m, x :: rest) else some (x, xs)

theorem pqPopMin_eq_none {α : Type} :
    ∀ q : List (DataItem α), pqPopMin q = none ↔ q = [] := by
  intro q
  cases q with
  | nil => simp [pqPopMin]
  | cons x xs =>
    simp only [pqPopMin]
    constructor
    · intro h
      cases hxs : pqPopMin xs with
      | none => rw [hxs] at h; cases h
      | some p =>
        rw [hxs] at h
        dsimp at h
        split at h <;> cases h
    · intro h; cases h

theorem pqPopMin_mem {α : Type} :
    ∀ (q : List (DataItem α)) (m : DataItem α) (rest : List (DataItem α)),
      pqPopMin q = some (m, rest) →
      m ∈ q ∧ ∀ x ∈ rest, x ∈ q := by
  intro q
  induction q with
  | nil => intro m rest h; cases h
  | cons y ys ih =>
    intro m rest h
    simp only [pqPopMin] at h
    cases hys : pqPopMin ys with
    | none =>
      rw [hys] at h
      cases h
      exact ⟨List.mem_cons_self _ _, by intro x hx; cases hx⟩
    | some p =>
      rw [hys] at h
      dsimp at h
      split at h
      · cases h
        obtain ⟨hm, hrest⟩ := ih p.1 p.2 (by rw [hys])
        constructor
        · exact List.mem_cons_of_mem _ hm
        · intro x hx
          rcases List.mem_cons.mp hx with h | h
          · subst h; exact List.mem_cons_self _ _
          · exact List.mem_cons_of_mem _ (hrest x h)
      · cases h
        exact ⟨List.mem_cons_self _ _, fun x hx => List.mem_cons_of_mem _ hx⟩

theorem pqPopMin_min {α : Type} :
    ∀ (q : List (DataItem α)) (m : DataItem α) (rest : List (DataItem α)),
      pqPopMin q = some (m, rest) →
      ∀ x ∈ q, m.date ≤ x.date := by
  intro q
  induction q with
  | nil => intro m rest h; cases h
  | cons y ys ih =>
    intro m rest h
    simp only [pqPopMin] at h
    cases hys : pqPopMin ys with
    | none =>
      rw [hys] at h
      cases h
      have : ys = [] := (pqPopMin_eq_none ys).mp hys
      subst this
      intro x hx
      rcases List.mem_cons.mp hx with h | h
      · subst h; exact le_refl _
      · cases h
    | some p =>
      rw [hys] at h
      dsimp at h
      split at h
      · rename_i hlt
        cases h
        intro x hx
        rcases List.mem_cons.mp hx with h | h
        · subst h; exact le_of_lt hlt
        · exact ih p.1 p.2 (by rw [hys]) x h
      · rename_i hnlt
        cases h
        intro x hx
        rcases List.mem_cons.mp hx with h | h
        · subst h; exact le_refl _
        · exact le_trans (not_lt.mp hnlt) (ih p.1 p.2 (by rw [hys]) x h)

/-- The keys of the `dbData` map that `storeDailyData` builds and enqueues
as a `DataItem`'s payload: `"symbol"`, the required IB fields and the
indicator fields.  The date travels in `DataItem::date` only; no `"date"`
key is ever inserted into the map. -/
def dbDataKeys : List String :=
  ["symbol", "open", "high", "low", "close", "volume",
   "adj_close", "sma", "ema", "rsi", "macd", "vwap", "momentum"]

/-- Model of `DailyDataFetcher::storeDailyData` as it acts on the queue when
handed a payload whose key set is `dataKeys`: the function first evaluates
`historicalData.at("date")`; when the map has no `"date"` key the
`std::out_of_range` is caught, `"Missing 'date' field"` is logged and the
function returns before anything reaches `addToQueue` — nothing is
enqueued.  With the key present it enqueues a record dated by that key
(order-wise, the item itself). -/
def storeDailyData {α : Type} (queue : List (DataItem α)) (item : DataItem α)
    (dataKeys : List String) : List (DataItem α) :=
  if dataKeys.contains "date" then queue ++ [item] else queue

theorem dbDataKeys_no_date : dbDataKeys.contains "date" = false := by decide

theorem storeDailyData_drops {α : Type} (queue : List (DataItem α))
    (item : DataItem α) : storeDailyData queue item dbDataKeys = queue := by
  simp [storeDailyData, dbDataKeys_no_date]
  decide

/-- Model of `DailyDataFetcher::writeToDatabaseFunc`: the writer pops `top()`
and attempts `db->insertOrUpdateDailyData`; on failure (or exception) it
hands the popped `item.data` back to `storeDailyData` intending a retry and
breaks — but `item.data` is the `dbData` map with keys `dbDataKeys`, which
has no `"date"` entry, so `storeDailyData` returns at its `out_of_range`
catch without enqueueing and the failed record is dropped.  Each `Bool` of
the outcome list is the result of one insert attempt.  Returns
(records written in order, remaining queue). -/
def writeToDatabaseFunc {α : Type} :
    List (DataItem α) → List Bool → List (DataItem α) × List (DataItem α)
  | q, [] => ([], q)
  | q, ok :: outs =>
    match pqPopMin q with
    | none => ([], q)
    | some (item, rest) =>
        if ok then
          let wr := writeToDatabaseFunc rest outs
          (item :: wr.1, wr.2)
        else
          writeToDatabaseFunc (storeDailyData rest item dbDataKeys) outs

theorem writeToDatabaseFunc_mem {α : Type} :
    ∀ (outs : List Bool) (q : List (DataItem α)) (x : DataItem α),
      x ∈ (writeToDatabaseFunc q outs).1 → x ∈ q := by
  intro outs
  induction outs with
  | nil => intro q x hx; simp [writeToDatabaseFunc] at hx
  | cons ok rest ih =>
    intro q x hx
    simp only [writeToDatabaseFunc] at hx
    cases hq : pqPopMin q with
    | none => rw [hq] at hx; simp at hx
    | some p =>
      rw [hq] at hx
      obtain ⟨hm, hsub⟩ := pqPopMin_mem q p.1 p.2 hq
      dsimp at hx
      split at hx
      · rcases List.mem_cons.mp hx with h | h
        · subst h; exact hm
        · exact hsub x (ih p.2 x h)
      · rw [storeDailyData_drops] at hx
        exact hsub x (ih p.2 x hx)

theorem writeToDatabaseFunc_sorted {α : Type} :
    ∀ (outs : List Bool) (q : List (DataItem α)),
      ((writeToDatabaseFunc q outs).1).Pairwise (fun a b => a.date ≤ b.date) := by
  intro outs
  induction outs with
  | nil => intro q; simp [writeToDatabaseFunc]
  | cons ok rest ih =>
    intro q
    simp only [writeToDatabaseFunc]
    cases hq : pqPopMin q with
    | none => simp
    | some p =>
      dsimp
      split
      · refine List.pairwise_cons.mpr ⟨?_, ih p.2⟩
        intro x hx
        have hxq : x ∈ p.2 := writeToDatabaseFunc_mem rest p.2 x hx
        have hmin := pqPopMin_min q p.1 p.2 hq
        exact hmin x ((pqPopMin_mem q p.1 p.2 hq).2 x hxq)
      · rw [storeDailyData_drops]
        exact ih p.2

/-! ## DailyDataFetcher: indicator kernel

The per-symbol state of `closingPrices`, `emaValues`, `emaDataPoints`,
`cumulativePriceVolume` and `cumulativeVolume` (`std::map` slots
value-initialize to empty/0 on first access); the model carries one symbol's
slice, the maps' keys being independent. -/

structure IndicatorState where
  closingPrices : List ℚ
  emaValue : ℚ
  emaDataPoints : Nat
  cumulativePriceVolume : ℚ
  cumulativeVolume : ℚ
  deriving Repr, DecidableEq

/-- Model of `DailyDataFetcher::calculateSMA`: append the close, evict from the front
while the window exceeds `period`, return the close itself while the window
is short of `period`, else the mean. -/
def calculateSMA (s : IndicatorState) (close : ℚ) (period : Nat) :
    ℚ × IndicatorState :=
  let cp0 := s.closingPrices ++ [close]
  let cp := cp0.drop (cp0.length - period)
  let s' := { s with closingPrices := cp }
  if cp.length < period then (close, s')
  else (cp.sum / (period : ℚ), s')

/-- Model of `DailyDataFetcher::calculateEMA`.  While `emaDataPoints[symbol] < period`
the call returns `calculateSMA(symbol, close, period)` and — unlike the
specification's description — neither the running EMA value nor the
seen-count is touched; once the count has reached `period` it performs
`ema ← (close − ema)·multiplier + ema`, increments the count and returns the
updated EMA. -/
def calculateEMA (s : IndicatorState) (close : ℚ) (period : Nat) :
    ℚ × IndicatorState :=
  let multiplier : ℚ := 2 / ((period : ℚ) + 1)
  if s.emaDataPoints < period then
    calculateSMA s close period
  else
    let newEma := (close - s.emaValue) * multiplier + s.emaValue
    (newEma, { s with emaValue := newEma, emaDataPoints := s.emaDataPoints + 1 })

/-- Model of `DailyDataFetcher::calculateVWAP`: unconditionally accumulate
`close·volume` and `volume`, then return the close if the cumulative volume
is zero, else the ratio.  Nothing ever resets the accumulators. -/
def calculateVWAP (s : IndicatorState) (volume close : ℚ) :
    ℚ × IndicatorState :=
  let s' := { s with
    cumulativePriceVolume := s.cumulativePriceVolume + close * volume
    cumulativeVolume := s.cumulativeVolume + volume }
  if s'.cumulativeVolume = 0 then (close, s')
  else (s'.cumulativePriceVolume / s'.cumulativeVolume, s')

/-- The indicator state after a sequence of `(volume, close)` vwap calls. -/
def vwapState (s : IndicatorState) (obs : List (ℚ × ℚ)) : IndicatorState :=
  obs.foldl (fun st vc => (calculateVWAP st vc.1 vc.2).2) s

theorem vwapState_accum :
    ∀ (obs : List (ℚ × ℚ)) (s : IndicatorState),
      (vwapState s obs).cumulativePriceVolume =
        s.cumulativePriceVolume + (obs.map (fun vc => vc.2 * vc.1)).sum ∧
      (vwapState s obs).cumulativeVolume =
        s.cumulativeVolume + (obs.map (fun vc => vc.1)).sum := by
  intro obs
  induction obs with
  | nil => intro s; simp [vwapState]
  | cons vc rest ih =>
    intro s
    have hstep : (calculateVWAP s vc.1 vc.2).2 =
        { s with
          cumulativePriceVolume := s.cumulativePriceVolume + vc.2 * vc.1
          cumulativeVolume := s.cumulativeVolume + vc.1 } := by
      simp [calculateVWAP, apply_ite]
    have h1 : vwapState s (vc :: rest) =
        vwapState ((calculateVWAP s vc.1 vc.2).2) rest := rfl
    rw [h1, hstep]
    obtain ⟨hpv, hv⟩ := ih
      { s with
        cumulativePriceVolume := s.cumulativePriceVolume + vc.2 * vc.1
        cumulativeVolume := s.cumulativeVolume + vc.1 }
    constructor
    · rw [hpv]; simp; ring
    · rw [hv]; simp; ring

/-- Claim C5 counterexample — with a fresh per-symbol state (seen-count 0,
running EMA 0) a call `calculateEMA(symbol, 10, 20)` leaves the running EMA
value at 0 and the seen-count at 0, while the claim's update rule
`ema ← ema + (close − ema)·multiplier` would give `20/21 ≠ 0`. -/
theorem calculateEMA_counterexample :
    (calculateEMA ⟨[], 0, 0, 0, 0⟩ 10 20).2.emaValue = 0 ∧
    (calculateEMA ⟨[], 0, 0, 0, 0⟩ 10 20).2.emaDataPoints = 0 ∧
    (0 : ℚ) + (10 - 0) * (2 / (20 + 1)) ≠ 0 := by
  with_unfolding_all decide

/-- Claim C5 (amended) — while the EMA seen-count is below the period, the ema
operation returns `sma(symbol, close, period)` and leaves the running EMA
value and the seen-count unchanged (the state change is the SMA window's
only); once the seen-count has reached the period, it updates
`ema ← ema + (close − ema)·multiplier` with multiplier `2/(period+1)`,
increments the seen-count, and returns the updated EMA. -/
theorem calculateEMA_spec (s : IndicatorState) (close : ℚ) (period : Nat) :
    (s.emaDataPoints < period →
      calculateEMA s close period = calculateSMA s close period ∧
      (calculateEMA s close period).2.emaValue = s.emaValue ∧
      (calculateEMA s close period).2.emaDataPoints = s.emaDataPoints) ∧
    (period ≤ s.emaDataPoints →
      (calculateEMA s close period).1 =
        s.emaValue + (close - s.emaValue) * (2 / ((period : ℚ) + 1)) ∧
      (calculateEMA s close period).2.emaValue = (calculateEMA s close period).1 ∧
      (calculateEMA s close period).2.emaDataPoints = s.emaDataPoints + 1 ∧
      (calculateEMA s close period).2.closingPrices = s.closingPrices) := by
  constructor
  · intro h
    refine ⟨by simp [calculateEMA, h], ?_, ?_⟩
    · simp [calculateEMA, h, calculateSMA, apply_ite]
    · simp [calculateEMA, h, calculateSMA, apply_ite]
  · intro h
    have hn : ¬ s.emaDataPoints < period := not_lt.mpr h
    refine ⟨?_, ?_, ?_, ?_⟩
    · simp [calculateEMA, hn]; ring
    · simp [calculateEMA, hn]
    · simp [calculateEMA, hn]
    · simp [calculateEMA, hn]

/-- Witness for C5: a below-period call on the fresh state and an at-period
call on a seeded state. -/
theorem calculateEMA_spec_witness :
    calculateEMA ⟨[], 0, 0, 0, 0⟩ 10 20 = calculateSMA ⟨[], 0, 0, 0, 0⟩ 10 20 ∧
    (calculateEMA ⟨[], 5, 20, 0, 0⟩ 10 20).1 =
      (⟨[], 5, 20, 0, 0⟩ : IndicatorState).emaValue +
        (10 - (⟨[], 5, 20, 0, 0⟩ : IndicatorState).emaValue) *
          (2 / (((20 : Nat) : ℚ) + 1)) :=
  ⟨((calculateEMA_spec ⟨[], 0, 0, 0, 0⟩ 10 20).1 (by decide)).1,
   ((calculateEMA_spec ⟨[], 5, 20, 0, 0⟩ 10 20).2 (by decide)).1⟩

/-- Claim C6 counterexample — the realtime `RealTimeData::calculateVWAP` with
historical ring `[100]` and volumes `[0]` (cumulative volume zero) returns
`0`, not the current close `100` that the claim demands. -/
theorem calculateVWAP_counterexample :
    RealTimeData.calculateVWAP [100] [0] = 0 ∧
    ([100] : List ℚ).getLastD 0 = 100 ∧
    (0 : ℚ) ≠ 100 := by
  with_unfolding_all decide

/-- Claim C6 (amended) — the daily-backfill vwap accumulates `close·volume`
and `volume` across all calls from process start (nothing resets the per
symbol accumulators) and returns the current close exactly when the
cumulative volume is zero, else the cumulative ratio; the realtime
`RealTimeData::calculateVWAP`, by contrast, is computed over the bounded
historical rings and returns `0` — not the close — whenever the summed
volume is zero. -/
theorem calculateVWAP_spec (s : IndicatorState) (obs : List (ℚ × ℚ))
    (volume close : ℚ) :
    (vwapState s obs).cumulativePriceVolume =
      s.cumulativePriceVolume + (obs.map (fun vc => vc.2 * vc.1)).sum ∧
    (vwapState s obs).cumulativeVolume =
      s.cumulativeVolume + (obs.map (fun vc => vc.1)).sum ∧
    ((vwapState s obs).cumulativeVolume + volume = 0 →
      (calculateVWAP (vwapState s obs) volume close).1 = close) ∧
    ((vwapState s obs).cumulativeVolume + volume ≠ 0 →
      (calculateVWAP (vwapState s obs) volume close).1 =
        ((vwapState s obs).cumulativePriceVolume + close * volume) /
          ((vwapState s obs).cumulativeVolume + volume)) ∧
    (∀ prices vols : List ℚ,
      ((List.zip prices vols).map (fun x => x.2)).sum = 0 →
      RealTimeData.calculateVWAP prices vols = 0) := by
  obtain ⟨hpv, hv⟩ := vwapState_accum obs s
  refine ⟨hpv, hv, ?_, ?_, ?_⟩
  · intro h; simp [calculateVWAP, h]
  · intro h; simp [calculateVWAP, h]
  · intro prices vols h
    simp only [RealTimeData.calculateVWAP]
    split
    · rfl
    · simp [h]

/-- Witness for C6: zero-volume daily observation returns the close; the
realtime vwap on a zero-volume ring returns 0. -/
theorem calculateVWAP_spec_witness :
    (calculateVWAP (vwapState ⟨[], 0, 0, 0, 0⟩ [(0, 100)]) 0 50).1 = 50 ∧
    RealTimeData.calculateVWAP [100] [(0 : ℚ)] = 0 :=
  ⟨(calculateVWAP_spec ⟨[], 0, 0, 0, 0⟩ [(0, 100)] 0 50).2.2.1
      (by with_unfolding_all decide),
   (calculateVWAP_spec ⟨[], 0, 0, 0, 0⟩ [(0, 100)] 0 50).2.2.2.2 [100] [0]
      (by with_unfolding_all decide)⟩

end DailyDataFetcher

/-- Helper: the realtime writer never reorders — the written prefix followed
by the remaining queue is the original queue, for every outcome sequence. -/
theorem rtWriter_drain {α : Type} :
    ∀ (outs : List Bool) (q : List α),
      (RealTimeData.writeToDatabaseFunc q outs).1 ++
        (RealTimeData.writeToDatabaseFunc q outs).2 = q := by
  intro outs
  induction outs with
  | nil => intro q; simp [RealTimeData.writeToDatabaseFunc]
  | cons ok rest ih =>
    intro q
    cases q with
    | nil => simp [RealTimeData.writeToDatabaseFunc]
    | cons b bs =>
      cases ok with
      | true =>
        simp only [RealTimeData.writeToDatabaseFunc]
        rw [List.cons_append, ih bs]
      | false =>
        simpa [RealTimeData.writeToDatabaseFunc] using ih (b :: bs)

/-- Claim C1 counterexample — the daily-backfill writer's queue is a
`std::priority_queue` ordered by date: enqueueing 2024-01-02 before
2024-01-01 and draining with two successful inserts writes 2024-01-01
first, violating FIFO (enqueue) order. -/
theorem dailyWriter_not_fifo :
    DailyDataFetcher.writeToDatabaseFunc
        [⟨"2024-01-02", 1⟩, ⟨"2024-01-01", 2⟩] [true, true] =
      ([⟨"2024-01-01", 2⟩, ⟨"2024-01-02", 1⟩], []) ∧
    ([⟨"2024-01-01", 2⟩, ⟨"2024-01-02", 1⟩] :
        List (DailyDataFetcher.DataItem Nat)) ≠
      [⟨"2024-01-02", 1⟩, ⟨"2024-01-01", 2⟩] := by
  with_unfolding_all decide

/-- Claim C1 (amended) — the realtime writer drains its `std::queue` in FIFO
order and a record whose insert fails stays at the head and is re-attempted
before any newer record: for every queue and outcome sequence, the written
records followed by the remaining queue reconstitute the original queue.
The daily-backfill writer instead drains its priority queue in ascending
date order, and a record whose insert fails is popped and then dropped:
the retry path hands `item.data` — the `dbData` map, whose key set
`dbDataKeys` has no `"date"` entry — to `storeDailyData`, which returns at
its `out_of_range` catch without enqueueing, so the drain simply continues
with the rest of the queue. -/
theorem persistence_writers_order :
    (∀ (α : Type) (q : List α) (outs : List Bool),
      (RealTimeData.writeToDatabaseFunc q outs).1 ++
        (RealTimeData.writeToDatabaseFunc q outs).2 = q) ∧
    (∀ (α : Type) (q : List (DailyDataFetcher.DataItem α)) (outs : List Bool),
      ((DailyDataFetcher.writeToDatabaseFunc q outs).1).Pairwise
        (fun a b => a.date ≤ b.date)) ∧
    (∀ (α : Type) (queue : List (DailyDataFetcher.DataItem α))
        (item : DailyDataFetcher.DataItem α),
      DailyDataFetcher.storeDailyData queue item DailyDataFetcher.dbDataKeys =
        queue) ∧
    (∀ (α : Type) (q : List (DailyDataFetcher.DataItem α)) (outs : List Bool)
        (item : DailyDataFetcher.DataItem α)
        (rest : List (DailyDataFetcher.DataItem α)),
      DailyDataFetcher.pqPopMin q = some (item, rest) →
      DailyDataFetcher.writeToDatabaseFunc q (false :: outs) =
        DailyDataFetcher.writeToDatabaseFunc rest outs) :=
  ⟨fun _ q outs => rtWriter_drain outs q,
   fun _ q outs => DailyDataFetcher.writeToDatabaseFunc_sorted outs q,
   fun _ queue item => DailyDataFetcher.storeDailyData_drops queue item,
   fun _ q outs item rest h => by
     simp [DailyDataFetcher.writeToDatabaseFunc, h,
       DailyDataFetcher.storeDailyData_drops]⟩

/-- Witness for C1 at a one-element daily queue: a failed insert drops the
record and the drain continues with the (empty) remainder. -/
theorem persistence_writers_order_witness :
    DailyDataFetcher.writeToDatabaseFunc
        [(⟨"2024-01-01", 0⟩ : DailyDataFetcher.DataItem Nat)] (false :: []) =
      DailyDataFetcher.writeToDatabaseFunc
        ([] : List (DailyDataFetcher.DataItem Nat)) [] :=
  persistence_writers_order.2.2.2 Nat [⟨"2024-01-01", 0⟩] [] ⟨"2024-01-01", 0⟩
    [] (by decide)

namespace Main

/-! ## Supervisor (`main.cpp`)

`isMarketOpenTime` converts the current instant to America/New_York
broken-down time (the conversion itself is OS time-zone machinery and is not
modelled; the model takes the broken-down New York time directly) and tests
only the hour and the weekday. -/

/-- The fields of `std::tm` the predicate reads, in New York local time
(`tm_wday`: 0 = Sunday; `tm_min` is carried to state the specification's
09:30 boundary). -/
structure Tm where
  tm_wday : Nat
  tm_hour : Nat
  tm_min : Nat
  deriving Repr, DecidableEq

/-- Model of `isMarketOpenTime` of `main.cpp`:
`open = (hour >= 9 && hour < 16)`, `weekend = (wday == 0 || wday == 6)`,
returns `open && !weekend`.  Minutes and holidays are not consulted. -/
def isMarketOpenTime (t : Tm) : Bool :=
  let opn := decide (9 ≤ t.tm_hour) && decide (t.tm_hour < 16)
  let weekend := decide (t.tm_wday = 0) || decide (t.tm_wday = 6)
  opn && !weekend

/-- Modelled from the spec: "Market hours: Monday–Friday 09:30–16:00
America/New_York, excluding U.S. federal market holidays"; whether the date
is such a holiday is supplied as a flag. -/
def specMarketOpen (t : Tm) (isHoliday : Bool) : Bool :=
  (decide (1 ≤ t.tm_wday) && decide (t.tm_wday ≤ 5)) &&
  (decide (10 ≤ t.tm_hour) || (decide (t.tm_hour = 9) && decide (30 ≤ t.tm_min))) &&
  decide (t.tm_hour < 16) && !isHoliday

/-- The realtime supervisor's wait loop,
`while (!isMarketOpenTime(logger) && running.load())` sampling once a
minute: given the sampled New York times, the index at which the loop exits
and `dataCollector->start()` is reached. -/
def marketOpenWait : List Tm → Option Nat
  | [] => none
  | t :: rest =>
      if isMarketOpenTime t then some 0
      else (marketOpenWait rest).map (· + 1)

/-- Claim C4 counterexample — Monday 09:05 New York time: the predicate is
true though the spec's window starts at 09:30; Thursday 10:00 on a U.S.
market holiday (e.g. 2024-07-04): the predicate is true though the spec
excludes holidays. -/
theorem isMarketOpenTime_counterexample :
    isMarketOpenTime ⟨1, 9, 5⟩ = true ∧
    specMarketOpen ⟨1, 9, 5⟩ false = false ∧
    isMarketOpenTime ⟨4, 10, 0⟩ = true ∧
    specMarketOpen ⟨4, 10, 0⟩ true = false := by
  decide

/-- Claim C4 (amended) — the supervisor's market-open predicate is true exactly
for instants falling Monday through Friday with the New York hour in
`[9, 16)` — the half hour 09:00–09:30 is included and U.S. federal market
holidays are not excluded — and the realtime collector is started only at a
sampled instant at which this predicate is true. -/
theorem isMarketOpenTime_spec (t : Tm) (samples : List Tm) (i : Nat)
    (h : marketOpenWait samples = some i) :
    (isMarketOpenTime t = true ↔
      (t.tm_wday ≠ 0 ∧ t.tm_wday ≠ 6 ∧ 9 ≤ t.tm_hour ∧ t.tm_hour < 16)) ∧
    isMarketOpenTime (samples.getD i ⟨0, 0, 0⟩) = true := by
  constructor
  · simp [isMarketOpenTime]
    tauto
  · clear t
    induction samples generalizing i with
    | nil => cases h
    | cons t rest ih =>
      simp only [marketOpenWait] at h
      split at h
      · rename_i hopen
        cases h
        simpa using hopen
      · cases hr : marketOpenWait rest with
        | none => rw [hr] at h; cases h
        | some j =>
          rw [hr] at h
          have hij : i = j + 1 := by
            simp [Option.map] at h
            omega
          subst hij
          simpa [List.getD_cons_succ] using ih j hr

/-- Witness for C4: a Tuesday 10:00 sample list whose first open instant is
index 1. -/
theorem isMarketOpenTime_spec_witness :
    (isMarketOpenTime ⟨2, 10, 0⟩ = true ↔
      ((⟨2, 10, 0⟩ : Tm).tm_wday ≠ 0 ∧ (⟨2, 10, 0⟩ : Tm).tm_wday ≠ 6 ∧
        9 ≤ (⟨2, 10, 0⟩ : Tm).tm_hour ∧ (⟨2, 10, 0⟩ : Tm).tm_hour < 16)) ∧
    isMarketOpenTime (([⟨0, 10, 0⟩, ⟨2, 10, 0⟩] : List Tm).getD 1 ⟨0, 0, 0⟩) =
      true :=
  isMarketOpenTime_spec ⟨2, 10, 0⟩ [⟨0, 10, 0⟩, ⟨2, 10, 0⟩] 1 (by decide)

end Main

end OpenSTX
